import Mathlib

/-!
Verification of the jdn-dss repository: a shallow embedding of the MLB
schedule-aggregation pipeline (`dss_mlb/src/lib.rs`) and of the grid
focus-navigation state machine (`dss_main/src/gl_mlb.rs`), together with
theorems settling the specification's claims about them.

Network calls (`reqwest::get`), JSON decoding (`serde_json::from_str`),
datetime parsing (`str::parse::<DateTime<Utc>>`) and local-time formatting
(`with_timezone` + `Display`) are external effects; they are modelled by an
environment record `Env` of oracle functions.  A Rust `panic!` (from
`unwrap`, `expect`, or slice indexing) and a propagated `reqwest::Error`
(the `?` operator) are modelled by the `RunResult` outcome type.
-/

/- Data model, translated field-for-field from `dss_mlb/src/lib.rs`.
   Rust `u32` becomes `Nat`, `Vec<T>` becomes `List T`, `Option<T>` becomes
   `Option T`. -/

structure MlbGameStatus where
  abstractGameState : String
  codedGameState : String
  detailedState : String
  statusCode : String
  reason : Option String
  abstractGameCode : String

structure MlbTeamRecord where
  wins : Nat
  losses : Nat
  pct : String

structure MlbTeamInfo where
  id : Nat
  name : String
  link : String

structure MlbGameTeamInfo where
  leagueRecord : MlbTeamRecord
  score : Option Nat
  team : MlbTeamInfo
  isWinner : Option Bool
  splitSquad : Bool
  seriesNumber : Nat

structure MlbGameTeams where
  away : MlbGameTeamInfo
  home : MlbGameTeamInfo

structure MlbPlayerInfo where
  id : Nat
  fullName : String
  link : String

structure MlbGameDecisions where
  winner : MlbPlayerInfo
  loser : MlbPlayerInfo
  save : Option MlbPlayerInfo

structure MlbVenueInfo where
  id : Nat
  name : String
  link : String

structure MlbImageCuts where
  aspectRatio : String
  width : Nat
  height : Nat
  src : String
  at2x : String
  at3x : String

structure MlbImageInfo where
  title : String
  altText : Option String
  cuts : List MlbImageCuts

structure MlbKeywordInfo where
  type : Option String
  value : String
  displayName : String

structure MlbContributorInfo where
  name : String

structure MlbGameMediaPlaybackInfo where
  name : String
  url : String
  width : String
  height : String

structure MlbGameArticleMedia where
  type : String
  state : String
  date : String
  id : String
  headline : String
  seoTitle : String
  slug : String
  blurb : String
  keywordsAll : List MlbKeywordInfo
  keywordsDisplay : List String
  image : MlbImageInfo
  noIndex : Bool
  mediaPlaybackId : String
  title : String
  description : String
  duration : String
  guid : Option String
  mediaPlaybackUrl : String
  playbacks : List MlbGameMediaPlaybackInfo

structure MlbGameArticle where
  type : String
  state : String
  date : String
  headline : String
  seoTitle : String
  slug : String
  blurb : String
  keywordsAll : List MlbKeywordInfo
  keywordsDisplay : List String
  image : MlbImageInfo
  subhead : Option String
  seoKeywords : String
  body : String
  contributors : List MlbContributorInfo
  photo : MlbImageInfo
  url : String
  media : Option MlbGameArticleMedia

structure MlbGameRecap where
  mlb : Option MlbGameArticle

structure MlbGameEditorial where
  recap : MlbGameRecap

structure MlbPlaceholderInfo where

structure MlbGameMedia where
  freeGame : Bool
  enhancedGame : Bool

structure MlbGameContent where
  link : String
  editorial : Option MlbGameEditorial
  media : Option MlbGameMedia
  highlights : Option MlbPlaceholderInfo
  summary : Option MlbPlaceholderInfo
  gameNotes : Option MlbPlaceholderInfo

structure MlbGameInfo where
  gamePk : Nat
  link : String
  gameType : String
  season : String
  gameDate : String
  officialDate : String
  status : MlbGameStatus
  teams : MlbGameTeams
  decisions : Option MlbGameDecisions
  venue : MlbVenueInfo
  content : MlbGameContent
  isTie : Option Bool
  gameNumber : Nat
  publicFacing : Bool
  doubleHeader : String
  gamedayType : String
  tiebreaker : String
  calendarEventID : String
  seasonDisplay : String
  dayNight : String
  scheduledInnings : Nat
  inningBreakLength : Nat
  gamesInSeries : Nat
  seriesGameNumber : Nat
  seriesDescription : String
  recordSource : String
  ifNecessary : String
  ifNecessaryDescription : String

structure MlbGameDateInfo where
  date : String
  totalGames : Nat
  games : List MlbGameInfo

structure MlbGameRange where
  totalGames : Nat
  dates : List MlbGameDateInfo

structure MlbGameClientInfo where
  title : String
  image : Option (List Nat)
  summary : String

/-- The schedule endpoint prefix, from `dss_mlb/src/lib.rs`. -/
def GAME_API : String :=
  "http://statsapi.mlb.com/api/v1/schedule?hydrate=game(content(editorial(recap))),decisions&sportId=1&date="

/-- Outcome of running a piece of the fallible pipeline code: a value, a
propagated `reqwest::Error` (Rust's `?` operator), or a Rust panic with its
message (`unwrap`, `expect`, slice indexing). -/
inductive RunResult (α : Type) where
  | ok (val : α)
  | fetchErr
  | panicked (msg : String)
deriving DecidableEq

/-- Sequencing of fallible steps: `?`-style propagation of errors and panics. -/
def RunResult.bind {α β : Type} : RunResult α → (α → RunResult β) → RunResult β
  | .ok a, f => f a
  | .fetchErr, _ => .fetchErr
  | .panicked m, _ => .panicked m

/-- Environment of external effects: the clock, HTTP transport, JSON and
datetime decoding, and local-time formatting.  `today` is a day number; the
timezone argument of `extract_client_info` is folded into `formatLocal`
(the composition of `with_timezone` and `Display`), which is fixed per run. -/
structure Env where
  today : Int
  formatDate : Int → String
  httpGetText : String → Except Unit String
  parseSchedule : String → Option MlbGameRange
  parseGameDate : String → Option Int
  formatLocal : Int → String
  httpGetBytes : String → Except Unit (List Nat)

/-- Panic message of `.expect("Unable to parse time")` in `extract_client_info`. -/
def timeParseMsg : String := "Unable to parse time"

/-- Panic message of the out-of-bounds index `article.image.cuts[0]` on an
empty `cuts` vector. -/
def cutsIndexMsg : String := "index out of bounds: the len is 0 but the index is 0"

/-- Panic message of `serde_json::from_str::<MlbGameRange>(..).unwrap()` on a
payload that does not match the schema. -/
def unwrapMsg : String := "called Result::unwrap on an Err value"

/-- The `"{away} at {home}"` title computed locally for every game. -/
def gameTitle (game : MlbGameInfo) : String :=
  game.teams.away.team.name ++ " at " ++ game.teams.home.team.name

/-- The recap article of a game, when the nested editorial content carries
one: the `if let Some(editorial) = &game.content.editorial` /
`if let Some(article) = &editorial.recap.mlb` chain of `extract_client_info`. -/
def gameArticle (game : MlbGameInfo) : Option MlbGameArticle :=
  game.content.editorial.bind fun editorial => editorial.recap.mlb

/-- One iteration of the `for game in &day_results.dates[0].games` loop of
`extract_client_info` in `dss_mlb/src/lib.rs`: derive the title, parse the
game time (panicking via `expect` if it does not parse), and resolve the
image and summary from the optional recap content, fetching the first image
cut by URL (propagating a transport failure via `?`, and panicking if the
`cuts` vector is empty). -/
def extractGame (env : Env) (game : MlbGameInfo) : RunResult MlbGameClientInfo :=
  let title := gameTitle game
  match env.parseGameDate game.gameDate with
  | none => .panicked timeParseMsg
  | some time =>
    let default_summary := "Live " ++ env.formatLocal time
    match game.content.editorial with
    | some editorial =>
      match editorial.recap.mlb with
      | some article =>
        match article.image.cuts.head? with
        | none => .panicked cutsIndexMsg
        | some cut =>
          match env.httpGetBytes cut.src with
          | .error _ => .fetchErr
          | .ok img_bytes => .ok ⟨title, some img_bytes, article.headline⟩
      | none => .ok ⟨title, none, default_summary⟩
    | none => .ok ⟨title, none, default_summary⟩

/-- The loop of `extract_client_info` over a day's games, in order, with
`?`-propagation of failures out of the whole function. -/
def extractGames (env : Env) : List MlbGameInfo → RunResult (List MlbGameClientInfo)
  | [] => .ok []
  | game :: rest =>
    (extractGame env game).bind fun r =>
      (extractGames env rest).bind fun rs => .ok (r :: rs)

/-- `extract_client_info` from `dss_mlb/src/lib.rs`: process the first date
of the decoded range (`dates.get(0)`), or return the empty list when there
is none. -/
def extract_client_info (env : Env) (day_results : MlbGameRange) :
    RunResult (List MlbGameClientInfo) :=
  match day_results.dates.head? with
  | some game_day => extractGames env game_day.games
  | none => .ok []

/-- The URL built for a day offset: `GAME_API` followed by the formatted
date `today + Duration::days(i)`. -/
def dayUrl (env : Env) (i : Int) : String :=
  GAME_API ++ env.formatDate (env.today + i)

/-- One iteration of the day loop in `MlbManager::get_games`: HTTP GET the
day's schedule (a transport failure propagates via `?`), decode it with
`serde_json::from_str(..).unwrap()` (a schema failure panics), and extract
the client records. -/
def dayStep (env : Env) (i : Int) : RunResult (List MlbGameClientInfo) :=
  match env.httpGetText (dayUrl env i) with
  | .error _ => .fetchErr
  | .ok day_text =>
    match env.parseSchedule day_text with
    | none => .panicked unwrapMsg
    | some day_result => extract_client_info env day_result

/-- The day loop of `MlbManager::get_games` over a list of day offsets,
pushing each day's records in offset order; the first failing day aborts
the whole run exactly as the sequential `for` loop with `?` does. -/
def get_games_offsets (env : Env) : List Int → RunResult (List (List MlbGameClientInfo))
  | [] => .ok []
  | i :: rest =>
    (dayStep env i).bind fun games =>
      (get_games_offsets env rest).bind fun boards => .ok (games :: boards)

/-- The configured day-offset list `vec![-2, -1, 0]` of `MlbManager::get_games`. -/
def offsets : List Int := [-2, -1, 0]

/-- `MlbManager::get_games` from `dss_mlb/src/lib.rs`. -/
def get_games (env : Env) : RunResult (List (List MlbGameClientInfo)) :=
  get_games_offsets env offsets

/-- The calendar date (day number) each board position is assembled from:
position `k` holds the day at `today + offsets[k]`. -/
def boardDates (env : Env) (offs : List Int) : List Int :=
  offs.map fun i => env.today + i

/- Navigation state machine, translated from `dss_main/src/gl_mlb.rs`. -/

/-- The number of games displayed at a time for each day
(`X_PAGE_SIZE` in `dss_main/src/gl_mlb.rs`). -/
def X_PAGE_SIZE : Nat := 5

/-- The directions in which focus can move (`FocusDirection` in
`dss_main/src/gl_utils.rs`). -/
inductive FocusDirection where
  | Up
  | Down
  | Left
  | Right
deriving DecidableEq

/-- Backing information for one game (`MlbGameGlInfo`): the client record
plus a lazily created texture, modelled as an opaque optional token. -/
structure MlbGameGlInfo where
  info : MlbGameClientInfo
  texture : Option Unit

/-- Backing information for one day row (`DayRowInfo`): the games and the
first visible column index. -/
structure DayRowInfo where
  games : List MlbGameGlInfo
  begin_index : Nat

/-- `DayRowInfo::new`: a fresh row starts with its window at offset 0. -/
def DayRowInfo.new (games : List MlbGameGlInfo) : DayRowInfo :=
  ⟨games, 0⟩

/-- The navigation state (`MlbUiInfo`): the day rows, the focused day and
the focused column within the visible window. -/
structure MlbUiInfo where
  days : List DayRowInfo
  focused_day : Nat
  focused_index : Nat

/-- The construction loop of `MlbUiInfo::init` / `main`: one `DayRowInfo::new`
row per day, initial focus `(0, 0)`. -/
def MlbUiInfo.ofGames (gs : List (List MlbGameGlInfo)) : MlbUiInfo :=
  ⟨gs.map DayRowInfo.new, 0, 0⟩

/-- `MlbGlUi::move_focus` from `dss_main/src/gl_mlb.rs`.  The source first
takes `&mut info.days[info.focused_day]` — an indexing operation that
panics when `focused_day` is out of bounds (in particular on an empty
board), before any direction is examined; that panic is modelled by
returning `none`.  Each direction then applies its guarded transition. -/
def move_focus (info : MlbUiInfo) (direction : FocusDirection) : Option MlbUiInfo :=
  match info.days.get? info.focused_day with
  | none => none
  | some day =>
    match direction with
    | .Left =>
      if info.focused_index > 0 then
        some { info with focused_index := info.focused_index - 1 }
      else if day.begin_index > 0 then
        let day' : DayRowInfo := { day with begin_index := day.begin_index - 1 }
        some { info with days := info.days.set info.focused_day day' }
      else
        some info
    | .Right =>
      if info.focused_index < X_PAGE_SIZE - 1 then
        some { info with focused_index := info.focused_index + 1 }
      else if day.begin_index + X_PAGE_SIZE < day.games.length then
        let day' : DayRowInfo := { day with begin_index := day.begin_index + 1 }
        some { info with days := info.days.set info.focused_day day' }
      else
        some info
    | .Up =>
      if info.focused_day > 0 then
        some { info with focused_day := info.focused_day - 1 }
      else
        some info
    | .Down =>
      if info.focused_day < info.days.length - 1 then
        some { info with focused_day := info.focused_day + 1 }
      else
        some info

/-- A sequence of directional events processed strictly sequentially, as the
event loop delivers them; a panic at any step aborts the run. -/
def steps : MlbUiInfo → List FocusDirection → Option MlbUiInfo
  | s, [] => some s
  | s, d :: ds =>
    match move_focus s d with
    | some s' => steps s' ds
    | none => none

/-- The structural navigation invariant: the focused day is in range, the
focused column is below the page size, and every day's window offset either
leaves a full page in range or is still 0. -/
def NavInv (s : MlbUiInfo) : Prop :=
  s.focused_day < s.days.length ∧
  s.focused_index < X_PAGE_SIZE ∧
  ∀ day ∈ s.days, day.begin_index + X_PAGE_SIZE ≤ day.games.length ∨ day.begin_index = 0

/- Concrete fixtures used by counterexamples and witnesses. -/

/-- The empty string, named so fixtures can pass it around. -/
def emptyStr : String := ""

/-- A fixed team record fixture. -/
def recordW : MlbTeamRecord := ⟨0, 0, emptyStr⟩

/-- A team-side fixture with the given team name. -/
def teamSideW (nm : String) : MlbGameTeamInfo :=
  ⟨recordW, none, ⟨1, nm, emptyStr⟩, none, false, 1⟩

/-- The two teams of the fixture game. -/
def teamsW : MlbGameTeams := { away := teamSideW "Away", home := teamSideW "Home" }

/-- A game-status fixture. -/
def statusW : MlbGameStatus := ⟨emptyStr, emptyStr, emptyStr, emptyStr, none, emptyStr⟩

/-- A venue fixture. -/
def venueW : MlbVenueInfo := ⟨1, emptyStr, emptyStr⟩

/-- A single image cut whose source URL is the string `imgurl`. -/
def cutW : MlbImageCuts :=
  { aspectRatio := emptyStr, width := 1, height := 1, src := "imgurl",
    at2x := emptyStr, at3x := emptyStr }

/-- An image-info fixture over the given cut list. -/
def imageInfoW (cuts : List MlbImageCuts) : MlbImageInfo := ⟨emptyStr, none, cuts⟩

/-- A recap-article fixture whose image has the given cut list. -/
def articleW (cuts : List MlbImageCuts) : MlbGameArticle :=
  { type := emptyStr, state := emptyStr, date := emptyStr, headline := "Headline",
    seoTitle := emptyStr, slug := emptyStr, blurb := emptyStr, keywordsAll := [],
    keywordsDisplay := [], image := imageInfoW cuts, subhead := none,
    seoKeywords := emptyStr, body := emptyStr, contributors := [],
    photo := imageInfoW [], url := emptyStr, media := none }

/-- Editorial content carrying a recap article with the given cut list. -/
def editorialW (cuts : List MlbImageCuts) : MlbGameEditorial :=
  ⟨⟨some (articleW cuts)⟩⟩

/-- A full raw game entry with the given optional editorial content; its
`gameDate` is the string `gd`. -/
def mkGameW (ed : Option MlbGameEditorial) : MlbGameInfo :=
  { gamePk := 1, link := emptyStr, gameType := emptyStr, season := emptyStr,
    gameDate := "gd", officialDate := emptyStr, status := statusW, teams := teamsW,
    decisions := none, venue := venueW,
    content := ⟨emptyStr, ed, none, none, none, none⟩, isTie := none,
    gameNumber := 1, publicFacing := true, doubleHeader := emptyStr,
    gamedayType := emptyStr, tiebreaker := emptyStr, calendarEventID := emptyStr,
    seasonDisplay := emptyStr, dayNight := emptyStr, scheduledInnings := 9,
    inningBreakLength := 120, gamesInSeries := 1, seriesGameNumber := 1,
    seriesDescription := emptyStr, recordSource := emptyStr, ifNecessary := emptyStr,
    ifNecessaryDescription := emptyStr }

/-- A game whose editorial content carries a recap article with one image cut. -/
def gameRecapW : MlbGameInfo := mkGameW (some (editorialW [cutW]))

/-- A game with no editorial content at all. -/
def gameNoRecapW : MlbGameInfo := mkGameW none

/-- An environment in which every day fetch succeeds and decodes to a range
with no dates, so every day extracts to the empty record list. -/
def envAllOk : Env :=
  { today := 0
    formatDate := fun d => toString d
    httpGetText := fun _ => Except.ok emptyStr
    parseSchedule := fun _ => some ⟨0, []⟩
    parseGameDate := fun _ => none
    formatLocal := fun _ => emptyStr
    httpGetBytes := fun _ => Except.error () }

/-- An environment in which exactly the day at offset `-2` suffers a
transport failure, while the days at offsets `-1` and `0` fetch and decode
successfully (to ranges with no dates). -/
def envC1 : Env :=
  { today := 0
    formatDate := fun d => toString d
    httpGetText := fun url =>
      if url = GAME_API ++ toString (-2 : Int) then Except.error () else Except.ok emptyStr
    parseSchedule := fun _ => some ⟨0, []⟩
    parseGameDate := fun _ => none
    formatLocal := fun _ => emptyStr
    httpGetBytes := fun _ => Except.error () }

/-- An environment in which game times parse but every image retrieval
suffers a transport failure. -/
def envC2 : Env :=
  { today := 0
    formatDate := fun d => toString d
    httpGetText := fun _ => Except.error ()
    parseSchedule := fun _ => none
    parseGameDate := fun _ => some 0
    formatLocal := fun _ => emptyStr
    httpGetBytes := fun _ => Except.error () }

/-- An environment in which no game time parses. -/
def envC10 : Env :=
  { today := 0
    formatDate := fun d => toString d
    httpGetText := fun _ => Except.error ()
    parseSchedule := fun _ => none
    parseGameDate := fun _ => none
    formatLocal := fun _ => emptyStr
    httpGetBytes := fun _ => Except.error () }

/-- A one-date range whose single game carries a recap article with one cut. -/
def rangeC2 : MlbGameRange := ⟨1, [⟨"2021-06-01", 1, [gameRecapW]⟩]⟩

/-- A one-date range whose single game carries no editorial content. -/
def rangeC10 : MlbGameRange := ⟨1, [⟨"2021-06-01", 1, [gameNoRecapW]⟩]⟩

/- Helper lemmas about the pipeline. -/

/-- The locally derived title always contains the literal ` at ` and is
therefore non-empty. -/
theorem gameTitle_ne_empty (game : MlbGameInfo) : gameTitle game ≠ emptyStr := by
  intro h
  have h1 := congrArg String.length h
  rw [show gameTitle game
        = game.teams.away.team.name ++ " at " ++ game.teams.home.team.name from rfl] at h1
  rw [String.length_append, String.length_append] at h1
  have h2 : (" at ").length = 4 := rfl
  have h3 : emptyStr.length = 0 := rfl
  omega

/-- A single enrichment step never panics when the game's time parses and
any present recap article has a non-empty cut list. -/
theorem extractGame_no_panic (env : Env) (game : MlbGameInfo)
    (ht : (env.parseGameDate game.gameDate).isSome = true)
    (hc : ∀ a, gameArticle game = some a → a.image.cuts ≠ []) :
    ∀ m, extractGame env game ≠ RunResult.panicked m := by
  intro m
  obtain ⟨t, ht'⟩ := Option.isSome_iff_exists.mp ht
  unfold extractGame
  rw [ht']
  cases hed : game.content.editorial with
  | none => simp
  | some ed =>
    cases ha : ed.recap.mlb with
    | none => simp [ha]
    | some a =>
      have hcuts : a.image.cuts ≠ [] := hc a (by simp [gameArticle, hed, ha])
      cases hcs : a.image.cuts with
      | nil => exact absurd hcs hcuts
      | cons c cs =>
        simp only [ha, hcs, List.head?]
        cases hb : env.httpGetBytes c.src <;> simp [hb]

/-- The enrichment loop never panics when every game in the list satisfies
the precondition of `extractGame_no_panic`. -/
theorem extractGames_no_panic (env : Env) (games : List MlbGameInfo)
    (h : ∀ g ∈ games, (env.parseGameDate g.gameDate).isSome = true ∧
          ∀ a, gameArticle g = some a → a.image.cuts ≠ []) :
    ∀ m, extractGames env games ≠ RunResult.panicked m := by
  induction games with
  | nil => intro m; simp [extractGames]
  | cons g gs ih =>
    intro m
    have hg := h g (by simp)
    have hgs := ih fun g' hg' => h g' (by simp [hg'])
    have hnp := extractGame_no_panic env g hg.1 hg.2
    unfold extractGames
    cases hx : extractGame env g with
    | ok r =>
      cases hy : extractGames env gs with
      | ok rs => simp [RunResult.bind, hy]
      | fetchErr => simp [RunResult.bind, hy]
      | panicked m' => exact absurd hy (hgs m')
    | fetchErr => simp [RunResult.bind]
    | panicked m' => exact absurd hx (hnp m')

/- Claim C1. -/

/-- C1 (counterexample): in the environment `envC1` exactly one of the three
configured day fetches (the day at offset `-2`) fails, with a transport
error, and the other two succeed; contrary to the claim, the resulting run
does not produce a board of the two successful days — the error result
escapes `get_games` to its caller. -/
theorem get_games_one_failed_day_counterexample :
    get_games envC1 = RunResult.fetchErr := by rfl

/-- C1 (amended): a failed day is not dropped from the board.  Whenever all
days configured before some offset `i` fetch and extract successfully, a
transport failure at day `i` makes `get_games` return the error result to
its caller (no board at all), and a schema-decoding failure at day `i`
makes it panic (the `unwrap` on `serde_json::from_str`). -/
theorem get_games_failed_day_escapes (env : Env) (pre rest : List Int) (i : Int)
    (hpre : ∀ j ∈ pre, ∃ g, dayStep env j = RunResult.ok g) :
    (env.httpGetText (dayUrl env i) = Except.error () →
      get_games_offsets env (pre ++ i :: rest) = RunResult.fetchErr) ∧
    (∀ body, env.httpGetText (dayUrl env i) = Except.ok body →
      env.parseSchedule body = none →
      get_games_offsets env (pre ++ i :: rest) = RunResult.panicked unwrapMsg) := by
  induction pre with
  | nil =>
    constructor
    · intro hfail
      simp [get_games_offsets, dayStep, hfail, RunResult.bind]
    · intro body hok hparse
      simp [get_games_offsets, dayStep, hok, hparse, RunResult.bind]
  | cons j pre ih =>
    obtain ⟨g, hg⟩ := hpre j (by simp)
    have ih' := ih fun j' hj' => hpre j' (by simp [hj'])
    constructor
    · intro hfail
      have hrec := ih'.1 hfail
      simp [get_games_offsets, hg, RunResult.bind, hrec]
    · intro body hok hparse
      have hrec := ih'.2 body hok hparse
      simp [get_games_offsets, hg, RunResult.bind, hrec]

/-- C1 (witness): the amended theorem applied to `envC1`, whose day at
offset `-2` (the first of the configured offsets, with no days before it)
fails with a transport error. -/
theorem get_games_failed_day_escapes_witness :
    get_games_offsets envC1 ([] ++ (-2 : Int) :: [-1, 0]) = RunResult.fetchErr :=
  (get_games_failed_day_escapes envC1 [] [-1, 0] (-2) (by simp)).1 (by rfl)

/- Claim C2. -/

/-- C2 (counterexample): in `envC2` the single game of `rangeC2` carries
recap content, its time parses, but the image retrieval fails with a
transport error; contrary to the claim, the enricher does not return a
`GameRecord` with the time-based fallback summary — the error escapes
`extract_client_info`, so no record is produced for the game at all. -/
theorem extract_client_info_image_failure_counterexample :
    extract_client_info envC2 rangeC2 = RunResult.fetchErr := by rfl

/-- C2 (amended): for a game whose time parses, the enricher returns a
record with the non-empty title `{away} at {home}` and, when recap content
is absent (no editorial block or no recap article), no image and the
time-based fallback summary; when recap content is present and the image
retrieval succeeds it returns the image bytes and the recap headline; but
when recap content is present and the image retrieval fails it returns the
transport error instead of any record. -/
theorem extractGame_enrichment_cases (env : Env) (game : MlbGameInfo) (t : Int)
    (ht : env.parseGameDate game.gameDate = some t) :
    (game.content.editorial = none →
      extractGame env game =
        RunResult.ok ⟨gameTitle game, none, "Live " ++ env.formatLocal t⟩) ∧
    (∀ ed, game.content.editorial = some ed → ed.recap.mlb = none →
      extractGame env game =
        RunResult.ok ⟨gameTitle game, none, "Live " ++ env.formatLocal t⟩) ∧
    (∀ ed a c cs bytes, game.content.editorial = some ed → ed.recap.mlb = some a →
      a.image.cuts = c :: cs → env.httpGetBytes c.src = Except.ok bytes →
      extractGame env game = RunResult.ok ⟨gameTitle game, some bytes, a.headline⟩) ∧
    (∀ ed a c cs, game.content.editorial = some ed → ed.recap.mlb = some a →
      a.image.cuts = c :: cs → env.httpGetBytes c.src = Except.error () →
      extractGame env game = RunResult.fetchErr) ∧
    gameTitle game ≠ emptyStr := by
  refine ⟨?_, ?_, ?_, ?_, gameTitle_ne_empty game⟩
  · intro hed
    simp [extractGame, ht, hed]
  · intro ed hed ha
    simp [extractGame, ht, hed, ha]
  · intro ed a c cs bytes hed ha hcs hb
    simp [extractGame, ht, hed, ha, hcs, hb]
  · intro ed a c cs hed ha hcs hb
    simp [extractGame, ht, hed, ha, hcs, hb]

/-- C2 (witness): the amended theorem applied to the recap-free fixture
game in `envC2`, whose times parse to `0`: the enricher yields the fallback
record. -/
theorem extractGame_enrichment_cases_witness :
    extractGame envC2 gameNoRecapW =
      RunResult.ok ⟨gameTitle gameNoRecapW, none, "Live " ++ envC2.formatLocal 0⟩ :=
  (extractGame_enrichment_cases envC2 gameNoRecapW 0 rfl).1 rfl

/- Claim C10. -/

/-- C10: the per-game enrichment of `extract_client_info` is total (never
panics) exactly under the precondition that every processed game's
`gameDate` parses and every present recap article has a non-empty `cuts`
list; a first game violating either condition makes `extract_client_info`
panic (the `expect` on the time parse, or the out-of-bounds `cuts[0]`)
rather than return an error or a fallback record. -/
theorem extract_client_info_totality_boundary (env : Env) (range : MlbGameRange) :
    ((∀ day, range.dates.head? = some day → ∀ g ∈ day.games,
        (env.parseGameDate g.gameDate).isSome = true ∧
        ∀ a, gameArticle g = some a → a.image.cuts ≠ []) →
      ∀ m, extract_client_info env range ≠ RunResult.panicked m) ∧
    (∀ day g gs, range.dates.head? = some day → day.games = g :: gs →
      env.parseGameDate g.gameDate = none →
      extract_client_info env range = RunResult.panicked timeParseMsg) ∧
    (∀ day g gs a t, range.dates.head? = some day → day.games = g :: gs →
      env.parseGameDate g.gameDate = some t → gameArticle g = some a →
      a.image.cuts = [] →
      extract_client_info env range = RunResult.panicked cutsIndexMsg) := by
  refine ⟨?_, ?_, ?_⟩
  · intro h m
    unfold extract_client_info
    cases hd : range.dates.head? with
    | none => simp
    | some day => exact extractGames_no_panic env day.games (h day hd) m
  · intro day g gs hd hg ht
    unfold extract_client_info
    rw [hd]
    show extractGames env day.games = RunResult.panicked timeParseMsg
    rw [hg]
    unfold extractGames extractGame
    simp [ht, RunResult.bind]
  · intro day g gs a t hd hg ht ha hcuts
    obtain ⟨ed, hed, ha'⟩ := Option.bind_eq_some.mp ha
    unfold extract_client_info
    rw [hd]
    show extractGames env day.games = RunResult.panicked cutsIndexMsg
    rw [hg]
    unfold extractGames extractGame
    simp [ht, hed, ha', hcuts, RunResult.bind]

/-- C10 (witness): in `envC10` no game time parses, so `extract_client_info`
on the fixture range panics with the time-parse message. -/
theorem extract_client_info_totality_boundary_witness :
    extract_client_info envC10 rangeC10 = RunResult.panicked timeParseMsg :=
  (extract_client_info_totality_boundary envC10 rangeC10).2.1
    ⟨"2021-06-01", 1, [gameNoRecapW]⟩ gameNoRecapW [] rfl rfl rfl

/- Claim C5. -/

/-- Characterization of a successful aggregation run: the board has one
entry per configured offset, and the entry at position `k` is exactly the
day fetched for the offset at position `k` — never a function of
completion timing, which the sequential `for` loop does not even observe. -/
theorem get_games_offsets_ok_spec (env : Env) (offs : List Int)
    (b : List (List MlbGameClientInfo))
    (h : get_games_offsets env offs = RunResult.ok b) :
    b.length = offs.length ∧
    ∀ k i, offs.get? k = some i →
      ∃ g, b.get? k = some g ∧ dayStep env i = RunResult.ok g := by
  induction offs generalizing b with
  | nil =>
    simp only [get_games_offsets, RunResult.ok.injEq] at h
    subst h
    refine ⟨rfl, ?_⟩
    intro k i hk
    simp at hk
  | cons i rest ih =>
    unfold get_games_offsets at h
    cases hx : dayStep env i with
    | ok g =>
      rw [hx] at h
      cases hy : get_games_offsets env rest with
      | ok bs =>
        rw [hy] at h
        simp only [RunResult.bind, RunResult.ok.injEq] at h
        subst h
        obtain ⟨hl, hspec⟩ := ih bs hy
        refine ⟨by simp [hl], ?_⟩
        intro k j hk
        cases k with
        | zero =>
          simp only [List.get?_cons_zero, Option.some.injEq] at hk
          subst hk
          exact ⟨g, by simp, hx⟩
        | succ k =>
          simp only [List.get?_cons_succ] at hk ⊢
          exact hspec k j hk
      | fetchErr => rw [hy] at h; simp [RunResult.bind] at h
      | panicked m => rw [hy] at h; simp [RunResult.bind] at h
    | fetchErr => rw [hx] at h; simp [RunResult.bind] at h
    | panicked m => rw [hx] at h; simp [RunResult.bind] at h

/-- C5: on a successful run the assembled board is ordered purely by the
configured day-offset list: position `k` holds the day fetched for the date
`today + offs[k]`, and whenever the offsets are strictly increasing the
dates of the board positions are strictly increasing as well (the fixed
convention: ascending calendar date, oldest day first, as with the source's
`vec![-2, -1, 0]`).  Completion order of network calls cannot influence
this: the board position is a function of the offset position alone. -/
theorem board_order_by_date (env : Env) (offs : List Int)
    (b : List (List MlbGameClientInfo))
    (h : get_games_offsets env offs = RunResult.ok b) :
    b.length = offs.length ∧
    (∀ k i, offs.get? k = some i →
      ∃ g, b.get? k = some g ∧ dayStep env i = RunResult.ok g) ∧
    (List.Chain' (· < ·) offs → List.Chain' (· < ·) (boardDates env offs)) := by
  obtain ⟨h1, h2⟩ := get_games_offsets_ok_spec env offs b h
  refine ⟨h1, h2, ?_⟩
  intro hc
  unfold boardDates
  exact (List.chain'_map _).mpr (hc.imp fun a b hab => by omega)

/-- C5 (witness): in `envAllOk` every configured day succeeds, yielding the
three-day board `[[], [], []]`, whose positions carry the strictly
ascending dates `today - 2, today - 1, today`. -/
theorem board_order_by_date_witness :
    ([[], [], []] : List (List MlbGameClientInfo)).length = offsets.length ∧
    (∀ k i, offsets.get? k = some i →
      ∃ g, ([[], [], []] : List (List MlbGameClientInfo)).get? k = some g ∧
        dayStep envAllOk i = RunResult.ok g) ∧
    (List.Chain' (· < ·) offsets → List.Chain' (· < ·) (boardDates envAllOk offsets)) :=
  board_order_by_date envAllOk offsets [[], [], []] (by rfl)

/- Claim C3. -/

/-- C3: navigating over an empty board is not a guarded no-op.  Whatever
cursor the state stores and whichever direction is requested, `move_focus`
indexes `days[focused_day]` into the empty day list before any boundary
check is consulted, and panics. -/
theorem move_focus_empty_board_panics (fd fi : Nat) (d : FocusDirection) :
    move_focus ⟨[], fd, fi⟩ d = none := by
  unfold move_focus
  cases fd <;> rfl

/- Claim C4. -/

/-- A display-ready fixture game. -/
def gameGlW : MlbGameGlInfo := ⟨⟨"A at B", none, emptyStr⟩, none⟩

/-- The single day row of the C4 scenario: exactly three games, window at 0. -/
def dayC4 : DayRowInfo := DayRowInfo.new [gameGlW, gameGlW, gameGlW]

/-- The C4 board: one day with exactly three games, initial focus. -/
def boardC4 : MlbUiInfo := MlbUiInfo.ofGames [[gameGlW, gameGlW, gameGlW]]

/-- C4 (counterexample): over a single day with exactly 3 games and
`X_PAGE_SIZE = 5`, three `MoveRight` events from the initial state leave
`focused_column` at 3 — not 2 as claimed — because the column guard
compares against the page size, not the day's game count. -/
theorem move_right_three_counterexample :
    steps boardC4 [FocusDirection.Right, FocusDirection.Right, FocusDirection.Right] =
      some ⟨[dayC4], 0, 3⟩ := by rfl

/-- C4 (amended): in the same scenario the window offset never changes, a
fourth `MoveRight` still increments the column (to 4 = `X_PAGE_SIZE - 1`,
beyond the last real game), and only a fifth `MoveRight` is a no-op. -/
theorem move_right_short_day_actual :
    steps boardC4 [FocusDirection.Right, FocusDirection.Right, FocusDirection.Right,
        FocusDirection.Right] = some ⟨[dayC4], 0, 4⟩ ∧
    steps boardC4 [FocusDirection.Right, FocusDirection.Right, FocusDirection.Right,
        FocusDirection.Right, FocusDirection.Right] = some ⟨[dayC4], 0, 4⟩ :=
  ⟨by rfl, by rfl⟩

/- Claim C6. -/

/-- C6: on a board whose focused day is in range, `MoveRight` increments
`focused_column` while it is below `X_PAGE_SIZE - 1`; otherwise, when a
further full page still fits (`begin_index + X_PAGE_SIZE < len(games)`), it
increments the focused day's window offset, leaving the column and every
other day untouched, and the new offset never exceeds
`len(games) - X_PAGE_SIZE`; otherwise nothing changes. -/
theorem move_right_transition (s : MlbUiInfo) (day : DayRowInfo)
    (hday : s.days.get? s.focused_day = some day) :
    (s.focused_index < X_PAGE_SIZE - 1 →
      move_focus s FocusDirection.Right =
        some ⟨s.days, s.focused_day, s.focused_index + 1⟩) ∧
    (¬ s.focused_index < X_PAGE_SIZE - 1 →
      day.begin_index + X_PAGE_SIZE < day.games.length →
      move_focus s FocusDirection.Right =
        some ⟨s.days.set s.focused_day ⟨day.games, day.begin_index + 1⟩,
          s.focused_day, s.focused_index⟩ ∧
      day.begin_index + 1 ≤ day.games.length - X_PAGE_SIZE) ∧
    (¬ s.focused_index < X_PAGE_SIZE - 1 →
      ¬ day.begin_index + X_PAGE_SIZE < day.games.length →
      move_focus s FocusDirection.Right = some s) := by
  refine ⟨?_, ?_, ?_⟩
  · intro h1
    unfold move_focus
    rw [hday]
    simp only [if_pos h1]
  · intro h1 h2
    refine ⟨?_, ?_⟩
    · unfold move_focus
      rw [hday]
      simp only [if_neg h1, if_pos h2]
    · have hp : X_PAGE_SIZE = 5 := rfl
      omega
  · intro h1 h2
    unfold move_focus
    rw [hday]
    simp only [if_neg h1, if_neg h2]

/-- C6 (witness): from the initial C4 board the focused column is 0, below
the page bound, so `MoveRight` increments it to 1. -/
theorem move_right_transition_witness :
    move_focus boardC4 FocusDirection.Right =
      some ⟨boardC4.days, boardC4.focused_day, boardC4.focused_index + 1⟩ :=
  (move_right_transition boardC4 dayC4 rfl).1 (by decide)

/- Claim C8. -/

/-- C8: boundary events on a non-empty board are exact no-ops.  At
`focused_day = 0`, `focused_column = 0` and window offset 0, `MoveLeft` and
`MoveUp` return the state unchanged; at the last day, the last column
(`X_PAGE_SIZE - 1`) and the last window position
(`begin_index + X_PAGE_SIZE >= len(games)`), `MoveRight` and `MoveDown`
return the state unchanged. -/
theorem boundary_noops (s : MlbUiInfo) (day : DayRowInfo)
    (hday : s.days.get? s.focused_day = some day) :
    (s.focused_day = 0 → s.focused_index = 0 → day.begin_index = 0 →
      move_focus s FocusDirection.Left = some s ∧
      move_focus s FocusDirection.Up = some s) ∧
    (s.focused_day = s.days.length - 1 → s.focused_index = X_PAGE_SIZE - 1 →
      day.games.length ≤ day.begin_index + X_PAGE_SIZE →
      move_focus s FocusDirection.Right = some s ∧
      move_focus s FocusDirection.Down = some s) := by
  refine ⟨?_, ?_⟩
  · intro h1 h2 h3
    have hx : ¬ s.focused_index > 0 := by omega
    have hy : ¬ day.begin_index > 0 := by omega
    have hz : ¬ s.focused_day > 0 := by omega
    constructor
    · unfold move_focus
      rw [hday]
      simp only [if_neg hx, if_neg hy]
    · unfold move_focus
      rw [hday]
      simp only [if_neg hz]
  · intro h1 h2 h3
    have hp : X_PAGE_SIZE = 5 := rfl
    have hx : ¬ s.focused_index < X_PAGE_SIZE - 1 := by omega
    have hy : ¬ day.begin_index + X_PAGE_SIZE < day.games.length := by omega
    have hz : ¬ s.focused_day < s.days.length - 1 := by omega
    constructor
    · unfold move_focus
      rw [hday]
      simp only [if_neg hx, if_neg hy]
    · unfold move_focus
      rw [hday]
      simp only [if_neg hz]

/-- C8 (witness): on the one-day C4 board in its initial state, `MoveLeft`
and `MoveUp` are no-ops. -/
theorem boundary_noops_witness :
    move_focus boardC4 FocusDirection.Left = some boardC4 ∧
    move_focus boardC4 FocusDirection.Up = some boardC4 :=
  (boundary_noops boardC4 dayC4 rfl).1 rfl rfl rfl

/- Claim C9. -/

/-- C9: with a valid focused day strictly above 0, `MoveUp` decrements
`focused_day` and changes nothing else — the day list (hence every day's
window offset, including the newly focused day's) and the focused column
are exactly as before. -/
theorem move_up_frame (s : MlbUiInfo) (day : DayRowInfo)
    (hday : s.days.get? s.focused_day = some day) (h : 0 < s.focused_day) :
    move_focus s FocusDirection.Up =
      some ⟨s.days, s.focused_day - 1, s.focused_index⟩ := by
  unfold move_focus
  rw [hday]
  simp only [gt_iff_lt, if_pos h]

/-- A two-day board focused on the second day, used to exercise `MoveUp`. -/
def boardC9 : MlbUiInfo := ⟨[DayRowInfo.new [], DayRowInfo.new [gameGlW]], 1, 0⟩

/-- C9 (witness): `MoveUp` from the second day of `boardC9` moves focus to
the first day and leaves the day rows and the column untouched. -/
theorem move_up_frame_witness :
    move_focus boardC9 FocusDirection.Up = some ⟨boardC9.days, 0, 0⟩ :=
  move_up_frame boardC9 (DayRowInfo.new [gameGlW]) rfl (by decide)

/- Claim C7. -/

/-- One navigation event on any state satisfying the structural invariant
succeeds (no panic) and preserves the invariant. -/
theorem move_focus_preserves_inv (s : MlbUiInfo) (d : FocusDirection) (h : NavInv s) :
    ∃ s', move_focus s d = some s' ∧ NavInv s' := by
  obtain ⟨hfd, hfi, hdays⟩ := h
  have hp : X_PAGE_SIZE = 5 := rfl
  cases hq : s.days.get? s.focused_day with
  | none =>
    rw [List.get?_eq_none] at hq
    omega
  | some day =>
    have hmem : day ∈ s.days := List.get?_mem hq
    have hbound := hdays day hmem
    cases d with
    | Left =>
      unfold move_focus
      rw [hq]
      by_cases h1 : s.focused_index > 0
      · simp only [if_pos h1]
        exact ⟨_, rfl, hfd, by show s.focused_index - 1 < X_PAGE_SIZE; omega, hdays⟩
      · simp only [if_neg h1]
        by_cases h2 : day.begin_index > 0
        · simp only [if_pos h2]
          refine ⟨⟨s.days.set s.focused_day ⟨day.games, day.begin_index - 1⟩,
            s.focused_day, s.focused_index⟩, rfl, ?_, hfi, ?_⟩
          · show s.focused_day <
              (s.days.set s.focused_day ⟨day.games, day.begin_index - 1⟩).length
            rw [List.length_set]
            exact hfd
          · intro day' hmem'
            rcases List.mem_or_eq_of_mem_set hmem' with hin | heq
            · exact hdays day' hin
            · subst heq
              show day.begin_index - 1 + X_PAGE_SIZE ≤ day.games.length ∨
                day.begin_index - 1 = 0
              omega
        · simp only [if_neg h2]
          exact ⟨s, rfl, hfd, hfi, hdays⟩
    | Right =>
      unfold move_focus
      rw [hq]
      by_cases h1 : s.focused_index < X_PAGE_SIZE - 1
      · simp only [if_pos h1]
        exact ⟨_, rfl, hfd, by show s.focused_index + 1 < X_PAGE_SIZE; omega, hdays⟩
      · simp only [if_neg h1]
        by_cases h2 : day.begin_index + X_PAGE_SIZE < day.games.length
        · simp only [if_pos h2]
          refine ⟨⟨s.days.set s.focused_day ⟨day.games, day.begin_index + 1⟩,
            s.focused_day, s.focused_index⟩, rfl, ?_, hfi, ?_⟩
          · show s.focused_day <
              (s.days.set s.focused_day ⟨day.games, day.begin_index + 1⟩).length
            rw [List.length_set]
            exact hfd
          · intro day' hmem'
            rcases List.mem_or_eq_of_mem_set hmem' with hin | heq
            · exact hdays day' hin
            · subst heq
              show day.begin_index + 1 + X_PAGE_SIZE ≤ day.games.length ∨
                day.begin_index + 1 = 0
              omega
        · simp only [if_neg h2]
          exact ⟨s, rfl, hfd, hfi, hdays⟩
    | Up =>
      unfold move_focus
      rw [hq]
      by_cases h1 : s.focused_day > 0
      · simp only [if_pos h1]
        exact ⟨_, rfl, by show s.focused_day - 1 < s.days.length; omega, hfi, hdays⟩
      · simp only [if_neg h1]
        exact ⟨s, rfl, hfd, hfi, hdays⟩
    | Down =>
      unfold move_focus
      rw [hq]
      by_cases h1 : s.focused_day < s.days.length - 1
      · simp only [if_pos h1]
        exact ⟨_, rfl, by show s.focused_day + 1 < s.days.length; omega, hfi, hdays⟩
      · simp only [if_neg h1]
        exact ⟨s, rfl, hfd, hfi, hdays⟩

/-- Any event sequence from an invariant state runs to completion and ends
in an invariant state. -/
theorem steps_preserves_inv (ds : List FocusDirection) :
    ∀ s, NavInv s → ∃ s', steps s ds = some s' ∧ NavInv s' := by
  induction ds with
  | nil => exact fun s h => ⟨s, rfl, h⟩
  | cons d ds ih =>
    intro s h
    obtain ⟨s', h1, h2⟩ := move_focus_preserves_inv s d h
    obtain ⟨s'', h3, h4⟩ := ih s' h2
    refine ⟨s'', ?_, h4⟩
    unfold steps
    rw [h1]
    exact h3

/-- The initial state over a non-empty board satisfies the invariant: all
window offsets are 0 and the focus is at the origin. -/
theorem ofGames_inv (gs : List (List MlbGameGlInfo)) (h : gs ≠ []) :
    NavInv (MlbUiInfo.ofGames gs) := by
  refine ⟨?_, ?_, ?_⟩
  · show 0 < (gs.map DayRowInfo.new).length
    rw [List.length_map]
    exact List.length_pos.mpr h
  · show 0 < X_PAGE_SIZE
    decide
  · intro day hmem
    obtain ⟨g, _, rfl⟩ := List.mem_map.mp hmem
    right
    rfl

/-- C7: every state reachable from the initial state over a fixed non-empty
board by any sequence of directional events keeps `focused_column` below
`X_PAGE_SIZE` and keeps every day's window offset at most
`len(games) - X_PAGE_SIZE` (and exactly 0 for a day with fewer than
`X_PAGE_SIZE` games); the lower bounds hold trivially since the indices are
naturals. -/
theorem nav_invariant_reachable (gs : List (List MlbGameGlInfo)) (hne : gs ≠ [])
    (ds : List FocusDirection) :
    ∃ s', steps (MlbUiInfo.ofGames gs) ds = some s' ∧
      s'.focused_index < X_PAGE_SIZE ∧
      ∀ day ∈ s'.days,
        (X_PAGE_SIZE ≤ day.games.length →
          day.begin_index ≤ day.games.length - X_PAGE_SIZE) ∧
        (day.games.length < X_PAGE_SIZE → day.begin_index = 0) := by
  obtain ⟨s', h1, h2⟩ := steps_preserves_inv ds _ (ofGames_inv gs hne)
  obtain ⟨_, hb, hc⟩ := h2
  refine ⟨s', h1, hb, ?_⟩
  intro day hmem
  have hd := hc day hmem
  have hp : X_PAGE_SIZE = 5 := rfl
  constructor <;> intro h <;> omega

/-- C7 (witness): the reachability invariant instantiated on a one-day,
one-game board after a single `MoveRight`. -/
theorem nav_invariant_reachable_witness :
    ∃ s', steps (MlbUiInfo.ofGames [[gameGlW]]) [FocusDirection.Right] = some s' ∧
      s'.focused_index < X_PAGE_SIZE ∧
      ∀ day ∈ s'.days,
        (X_PAGE_SIZE ≤ day.games.length →
          day.begin_index ≤ day.games.length - X_PAGE_SIZE) ∧
        (day.games.length < X_PAGE_SIZE → day.begin_index = 0) :=
  nav_invariant_reachable [[gameGlW]] (by simp) [FocusDirection.Right]
